import Mathlib

/-!
Shallow embedding of `src/perfEvents_linux.cpp` (async-profiler's Linux
perf-events engine): the event catalog (`PerfEventType`, `forName`,
`getBreakpoint`, `getTracepoint`), the per-thread counter lifecycle
(`createForThread`, `destroyForThread`, `start`), the signal handler, and
the ring-buffer call-chain reader (`getCallChain`).

Machine integers are modelled as `Nat` with explicit `% 2 ^ w` at the
points where the C code performs a narrowing cast; C strings are
`List Char`; external effects (dlsym, debugfs, perf_event_open, mmap,
registers of the interrupted thread) are explicit environment records.
-/

namespace PerfEventsLinux

/-! ### Kernel ABI constants (from linux/perf_event.h and linux/hw_breakpoint.h). -/

def PERF_TYPE_HARDWARE : Nat := 0
def PERF_TYPE_SOFTWARE : Nat := 1
def PERF_TYPE_TRACEPOINT : Nat := 2
def PERF_TYPE_HW_CACHE : Nat := 3
def PERF_TYPE_BREAKPOINT : Nat := 5

def PERF_COUNT_SW_CPU_CLOCK : Nat := 0
def PERF_COUNT_SW_PAGE_FAULTS : Nat := 2
def PERF_COUNT_SW_CONTEXT_SWITCHES : Nat := 3

def PERF_COUNT_HW_CPU_CYCLES : Nat := 0
def PERF_COUNT_HW_INSTRUCTIONS : Nat := 1
def PERF_COUNT_HW_CACHE_REFERENCES : Nat := 2
def PERF_COUNT_HW_CACHE_MISSES : Nat := 3
def PERF_COUNT_HW_BRANCH_INSTRUCTIONS : Nat := 4
def PERF_COUNT_HW_BRANCH_MISSES : Nat := 5
def PERF_COUNT_HW_BUS_CYCLES : Nat := 6

def PERF_COUNT_HW_CACHE_L1D : Nat := 0
def PERF_COUNT_HW_CACHE_LL : Nat := 2
def PERF_COUNT_HW_CACHE_DTLB : Nat := 3
def PERF_COUNT_HW_CACHE_OP_READ : Nat := 0
def PERF_COUNT_HW_CACHE_RESULT_MISS : Nat := 1

def HW_BREAKPOINT_R : Nat := 1
def HW_BREAKPOINT_W : Nat := 2
def HW_BREAKPOINT_RW : Nat := 3
def HW_BREAKPOINT_X : Nat := 4

def PERF_RECORD_SAMPLE : Nat := 9

/-- `PERF_CONTEXT_MAX = (__u64)-4095`: u64 values at or above this are
call-chain context markers, not instruction addresses. -/
def PERF_CONTEXT_MAX : Nat := 2 ^ 64 - 4095

/-- `sizeof(long)` on the LP64 targets this file compiles for. -/
def SIZEOF_LONG : Nat := 8

/-- Modelled from the spec: `DEFAULT_INTERVAL` comes from `arch.h`, which is
not part of the provided source; it is the default sampling interval of the
`cpu` event. None of the verified properties depend on its value. -/
def DEFAULT_INTERVAL : Int := 10000000

/-- `sysconf(_SC_PAGESIZE)`; 4096 on the supported platforms. The masks
`& (PERF_PAGE_SIZE - 1)` in `RingBuffer` rely on it being a power of two. -/
def PERF_PAGE_SIZE : Nat := 4096

/-! ### C string helpers used by the parser (`strncmp`-as-prefix-test,
`strrchr`+`*c++ = 0` as a split at the last occurrence, `strtol`/`atoi`). -/

/-- `strncmp(s, pat, |pat|) == 0`: does `s` start with `pat`? -/
def hasPre : List Char → List Char → Bool
  | _, [] => true
  | [], _ :: _ => false
  | a :: as, b :: bs => a == b && hasPre as bs

/-- `strrchr(buf, ch)` followed by `*c++ = 0`: split `buf` at the LAST
occurrence of `ch` into the part before and the part after; `none` when
`ch` does not occur. -/
def strrchrSplit (ch : Char) : List Char → Option (List Char × List Char)
  | [] => none
  | a :: rest =>
    match strrchrSplit ch rest with
    | some (p, s) => some (a :: p, s)
    | none => if a = ch then some ([], rest) else none

/-- Value of `c` as a digit in `base`, if any. -/
def digitVal (base : Nat) (c : Char) : Option Nat :=
  let v :=
    if '0' ≤ c ∧ c ≤ '9' then some (c.toNat - '0'.toNat)
    else if 'a' ≤ c ∧ c ≤ 'f' then some (c.toNat - 'a'.toNat + 10)
    else if 'A' ≤ c ∧ c ≤ 'F' then some (c.toNat - 'A'.toNat + 10)
    else none
  match v with
  | some d => if d < base then some d else none
  | none => none

/-- Accumulate digits in `base`, stopping at the first non-digit
(the behaviour of `strtol` on the already-located digit string). -/
def parseNum (base : Nat) : List Char → Nat → Nat
  | [], acc => acc
  | c :: rest, acc =>
    match digitVal base c with
    | some d => parseNum base rest (acc * base + d)
    | none => acc

/-- `strtol(s, NULL, 0)` on the non-negative inputs of this file:
`0x`/`0X` means hex, a leading `0` means octal, otherwise decimal.
(Leading whitespace and signs never occur in the event specs parsed here.) -/
def strtoul0 (s : List Char) : Nat :=
  if hasPre s ['0', 'x'] ∨ hasPre s ['0', 'X'] then parseNum 16 (s.drop 2) 0
  else parseNum 8 s 0

/-- `atoi` on a non-negative decimal string; any non-digit first character
gives 0, matching the `> 0` tests this value feeds (a negative `atoi`
result fails those tests exactly as 0 does). -/
def atoiNat (s : List Char) : Nat := parseNum 10 s 0

/-! ### Event catalog -/

/-- `struct PerfEventType`. The `name` is `none` for the `{NULL}` array
terminator. Fields the C aggregate initializer leaves out default to 0. -/
structure PerfEventTypeR where
  name : Option (List Char)
  default_interval : Int := 0
  precise_ip : Nat := 0
  type : Nat := 0
  config : Nat := 0
  bp_type : Nat := 0
  bp_len : Nat := 0
  counter_arg : Nat := 0
deriving DecidableEq

/-- `LOAD_MISS(perf_hw_cache_id)`. -/
def LOAD_MISS (perf_hw_cache_id : Nat) : Nat :=
  perf_hw_cache_id |||
    (PERF_COUNT_HW_CACHE_OP_READ <<< 8) ||| (PERF_COUNT_HW_CACHE_RESULT_MISS <<< 16)

/-- `PerfEventType::AVAILABLE_EVENTS`, terminator entry included (the C
array has 16 entries, the last being `{NULL}`). -/
def AVAILABLE_EVENTS : List PerfEventTypeR :=
  [ { name := some "cpu".toList, default_interval := DEFAULT_INTERVAL, precise_ip := 2,
      type := PERF_TYPE_SOFTWARE, config := PERF_COUNT_SW_CPU_CLOCK },
    { name := some "page-faults".toList, default_interval := 1, precise_ip := 2,
      type := PERF_TYPE_SOFTWARE, config := PERF_COUNT_SW_PAGE_FAULTS },
    { name := some "context-switches".toList, default_interval := 1, precise_ip := 2,
      type := PERF_TYPE_SOFTWARE, config := PERF_COUNT_SW_CONTEXT_SWITCHES },
    { name := some "cycles".toList, default_interval := 1000000, precise_ip := 2,
      type := PERF_TYPE_HARDWARE, config := PERF_COUNT_HW_CPU_CYCLES },
    { name := some "instructions".toList, default_interval := 1000000, precise_ip := 2,
      type := PERF_TYPE_HARDWARE, config := PERF_COUNT_HW_INSTRUCTIONS },
    { name := some "cache-references".toList, default_interval := 1000000, precise_ip := 0,
      type := PERF_TYPE_HARDWARE, config := PERF_COUNT_HW_CACHE_REFERENCES },
    { name := some "cache-misses".toList, default_interval := 1000, precise_ip := 0,
      type := PERF_TYPE_HARDWARE, config := PERF_COUNT_HW_CACHE_MISSES },
    { name := some "branches".toList, default_interval := 1000000, precise_ip := 2,
      type := PERF_TYPE_HARDWARE, config := PERF_COUNT_HW_BRANCH_INSTRUCTIONS },
    { name := some "branch-misses".toList, default_interval := 1000, precise_ip := 2,
      type := PERF_TYPE_HARDWARE, config := PERF_COUNT_HW_BRANCH_MISSES },
    { name := some "bus-cycles".toList, default_interval := 1000000, precise_ip := 0,
      type := PERF_TYPE_HARDWARE, config := PERF_COUNT_HW_BUS_CYCLES },
    { name := some "L1-dcache-load-misses".toList, default_interval := 1000000, precise_ip := 0,
      type := PERF_TYPE_HW_CACHE, config := LOAD_MISS PERF_COUNT_HW_CACHE_L1D },
    { name := some "LLC-load-misses".toList, default_interval := 1000, precise_ip := 0,
      type := PERF_TYPE_HW_CACHE, config := LOAD_MISS PERF_COUNT_HW_CACHE_LL },
    { name := some "dTLB-load-misses".toList, default_interval := 1000, precise_ip := 0,
      type := PERF_TYPE_HW_CACHE, config := LOAD_MISS PERF_COUNT_HW_CACHE_DTLB },
    { name := some "mem:breakpoint".toList, default_interval := 1, precise_ip := 0,
      type := PERF_TYPE_BREAKPOINT, config := 0 },
    { name := some "trace:tracepoint".toList, default_interval := 1, precise_ip := 0,
      type := PERF_TYPE_TRACEPOINT, config := 0 },
    { name := none } ]

/-- `PerfEventType::KNOWN_FUNCTIONS` (terminator dropped: the lookup loop
stops at it). -/
def KNOWN_FUNCTIONS : List (List Char × Nat) :=
  [ ("malloc".toList, 1), ("mmap".toList, 2), ("read".toList, 3), ("write".toList, 3),
    ("send".toList, 3), ("recv".toList, 3), ("sendto".toList, 3), ("recvfrom".toList, 3) ]

/-- `PerfEventType::findCounterArg`. -/
def findCounterArg (name : List Char) : Nat :=
  match KNOWN_FUNCTIONS.find? (fun f => f.1 = name) with
  | some f => f.2
  | none => 0

/-- `PerfEventType::findByType`: first catalog entry of the given type.
The C loop has no bound and would run off the array if the type were
absent; both call sites use types present in the table, where the result
is `some`. -/
def findByType (t : Nat) : Option PerfEventTypeR :=
  AVAILABLE_EVENTS.find? (fun e => e.type = t)

/-- The table-lookup loop of `forName`: scan `AVAILABLE_EVENTS` until the
`{NULL}` terminator, returning the entry whose name matches exactly. -/
def lookupEvent (name : List Char) : List PerfEventTypeR → Option PerfEventTypeR
  | [] => none
  | e :: rest =>
    match e.name with
    | none => none
    | some n => if n = name then some e else lookupEvent name rest

/-- Environment of name resolution: `dlsym(RTLD_DEFAULT, sym)` (0 when the
symbol is unresolved, as in C) and `findTracepointId(name)` (the id read
from `/sys/kernel/debug/tracing/events/<name with first : as />/id`,
0 on any failure; a negative `atoi` result behaves like 0 at the single
`> 0` use site). -/
structure ResolveEnv where
  dlsym : List Char → Nat
  tracefsId : List Char → Nat

/-- `PerfEventType::getTracepoint`: the tracepoint catalog entry with its
`config` set to the id. (The C code mutates the static entry in place and
returns a pointer to it; the model returns the updated copy.) -/
def getTracepoint (tracepoint_id : Nat) : Option PerfEventTypeR :=
  match findByType PERF_TYPE_TRACEPOINT with
  | none => none
  | some e => some { e with config := tracepoint_id }

/-- The part of `PerfEventType::getBreakpoint` after the access-type
parse: parse `[/len]`, then `[+offset]`, then a `0x` address or a
dynamic-symbol name (only the symbol branch can fail, when `dlsym`
returns 0), then fill in the breakpoint catalog entry. `mk` plays the
role of the C code's final field assignments on the shared entry. -/
def getBreakpointTail (env : ResolveEnv) (buf0 : List Char) (bp_type bp_len : Nat) :
    Option PerfEventTypeR :=
  let lenSplit :=
    match strrchrSplit '/' buf0 with
    | none => (buf0, bp_len)
    | some (p, s) => (p, strtoul0 s % 2 ^ 32)
  let offSplit :=
    match strrchrSplit '+' lenSplit.1 with
    | none => (lenSplit.1, 0)
    | some (p, s) => (p, strtoul0 s % 2 ^ 64)
  let buf := offSplit.1
  match findByType PERF_TYPE_BREAKPOINT with
  | none => none
  | some b =>
    let mk := fun (addr : Nat) =>
      some { b with
        config := (addr + offSplit.2) % 2 ^ 64,
        bp_type := bp_type,
        bp_len := lenSplit.2,
        counter_arg := if bp_type = HW_BREAKPOINT_X then findCounterArg buf else 0 }
    if hasPre buf ['0', 'x'] then mk (strtoul0 buf % 2 ^ 64)
    else if env.dlsym buf = 0 then none
    else mk (env.dlsym buf)

/-- `PerfEventType::getBreakpoint`: breakpoint format
`func[+offset][/len][:rwx]`. First the access-type suffix after the last
`:` is consumed; an unrecognized suffix silently defaults to
`HW_BREAKPOINT_RW`. (The C code first copies `name` into a 256-byte
buffer; names here are shorter than the buffer.) -/
def getBreakpoint (env : ResolveEnv) (name : List Char) (bp_type bp_len : Nat) :
    Option PerfEventTypeR :=
  match strrchrSplit ':' name with
  | none => getBreakpointTail env name bp_type bp_len
  | some (p, s) =>
    if s = ['r'] then getBreakpointTail env p HW_BREAKPOINT_R bp_len
    else if s = ['w'] then getBreakpointTail env p HW_BREAKPOINT_W bp_len
    else if s = ['x'] then getBreakpointTail env p HW_BREAKPOINT_X SIZEOF_LONG
    else getBreakpointTail env p HW_BREAKPOINT_RW bp_len

/-- `PerfEventType::forName`: `mem:` breakpoints, `trace:` raw tracepoint
ids, the static table, debugfs tracepoints for names containing `:`
(falling through to a breakpoint on failure), and finally a function-name
execution breakpoint. -/
def forName (env : ResolveEnv) (name : List Char) : Option PerfEventTypeR :=
  if hasPre name "mem:".toList then
    getBreakpoint env (name.drop 4) HW_BREAKPOINT_RW 1
  else if hasPre name "trace:".toList then
    let tracepoint_id := atoiNat (name.drop 6)
    if tracepoint_id > 0 then getTracepoint tracepoint_id else none
  else
    match lookupEvent name AVAILABLE_EVENTS with
    | some e => some e
    | none =>
      if name.contains ':' then
        let tracepoint_id := env.tracefsId name
        if tracepoint_id > 0 then getTracepoint tracepoint_id
        else getBreakpoint env name HW_BREAKPOINT_X SIZEOF_LONG
      else getBreakpoint env name HW_BREAKPOINT_X SIZEOF_LONG

/-- `PerfEvents::getAvailableEvents`: `sizeof/sizeof` counts the `{NULL}`
terminator, so the returned array has 16 entries whose last name is NULL. -/
def getAvailableEvents : List (Option (List Char)) :=
  AVAILABLE_EVENTS.map (fun e => e.name)

/-! ### Per-thread counter state (`class PerfEvent`, the `PerfEvents`
statics) and the counter lifecycle. -/

/-- The mapped `perf_event_mmap_page` together with the data page that
follows it. `ring off` is the u64 word of the data region at masked byte
offset `off` (what `RingBuffer::seek`/`next` dereference). -/
structure RBPage where
  dataTail : Nat
  dataHead : Nat
  ring : Nat → Nat

/-- One slot of the `_events` array: the spin-lock state, the counter fd
(0 = not open) and the mapped page (`none` = NULL). -/
structure PerfEvent where
  locked : Bool
  fd : Nat
  page : Option RBPage

/-- A zeroed slot, as produced by `calloc`. -/
def emptySlot : PerfEvent := { locked := false, fd := 0, page := none }

/-- The static state of `PerfEvents`: `_max_events`, `_events`,
`_event_type`, `_interval`, plus whether the SIGPROF handler is installed
and a count of messages printed to stderr (`fprintf`/`perror`). -/
structure PerfEventsState where
  maxEvents : Nat
  events : List PerfEvent
  eventType : Option PerfEventTypeR
  interval : Int
  handlerInstalled : Bool
  warnCount : Nat

/-- Environment of the lifecycle syscalls: `getMaxPID()`, the
`perf_event_open` outcome per tid (`none` = -1), the `mmap` outcome per
tid, and the `/proc/self/task` listing enumerated by
`createForAllThreads`. A freshly mapped page has both cursors 0 and a
zeroed data area. -/
structure SysEnv where
  maxPID : Nat
  openFd : Nat → Option Nat
  mmapOk : Nat → Bool
  liveTids : List Nat

/-- The content of a freshly mapped counter page. -/
def freshPage : RBPage := { dataTail := 0, dataHead := 0, ring := fun _ => 0 }

/-- `PerfEvents::createForThread`. A tid at or beyond `_max_events` is
rejected with a warning; a failed `perf_event_open` is reported
(`perror`) and leaves the slot untouched; a failed `mmap` is reported and
recorded as a NULL page but the counter still counts. On success the slot
is reset (guard unlocked) and the fd and page stored; the `fcntl`/`ioctl`
arming calls act only on the kernel object and are not part of the state. -/
def createForThread (env : SysEnv) (st : PerfEventsState) (tid : Nat) :
    Bool × PerfEventsState :=
  if tid ≥ st.maxEvents then
    (false, { st with warnCount := st.warnCount + 1 })
  else
    match env.openFd tid with
    | none => (false, { st with warnCount := st.warnCount + 1 })
    | some fd =>
      let pageWarn : Option RBPage × Nat :=
        if env.mmapOk tid then (some freshPage, st.warnCount) else (none, st.warnCount + 1)
      let slot : PerfEvent := { locked := false, fd := fd, page := pageWarn.1 }
      (true, { st with events := st.events.set tid slot, warnCount := pageWarn.2 })

/-- `PerfEvents::createForAllThreads`: open a counter for every live tid,
succeeding when at least one succeeds. -/
def createForAllThreads (env : SysEnv) (st : PerfEventsState) : Bool × PerfEventsState :=
  env.liveTids.foldl
    (fun acc tid =>
      let r := createForThread env acc.2 tid
      (acc.1 || r.1, r.2))
    (false, st)

/-- The slot transform of `PerfEvents::destroyForThread`: if the fd is
open, disable and close it and zero the handle; if a page is mapped,
unmap it and clear the pointer under the slot's guard (the guard is
unlocked at the end of that branch). -/
def destroySlot (ev0 : PerfEvent) : PerfEvent :=
  let ev1 := if ev0.fd ≠ 0 then { ev0 with fd := 0 } else ev0
  if ev1.page.isSome then { ev1 with page := none, locked := false } else ev1

/-- `PerfEvents::destroyForThread`. A tid at or beyond `_max_events` is a
no-op; otherwise the slot is closed and unmapped in place. -/
def destroyForThread (st : PerfEventsState) (tid : Nat) : PerfEventsState :=
  if tid ≥ st.maxEvents then st
  else { st with events := st.events.set tid (destroySlot (st.events.getD tid emptySlot)) }

/-- `PerfEvents::destroyForAllThreads`: destroy every slot up to capacity. -/
def destroyForAllThreads (st : PerfEventsState) : PerfEventsState :=
  (List.range st.maxEvents).foldl destroyForThread st

/-- `PerfEvents::installSignalHandler` (sigaction on SIGPROF). -/
def installSignalHandler (st : PerfEventsState) : PerfEventsState :=
  { st with handlerInstalled := true }

/-- The `Error` result type of `start` (`Error::OK` or a message). -/
inductive ErrorR where
  | ok : ErrorR
  | msg : List Char → ErrorR
deriving DecidableEq

/-- `PerfEvents::start`: resolve the event name (assigning `_event_type`
before the NULL check, exactly as the C code does), validate the
interval, substitute the descriptor's default when the interval is 0,
reallocate the slot array when `getMaxPID()` changed, install the signal
handler, and open a counter for every live thread. -/
def start (renv : ResolveEnv) (senv : SysEnv) (st : PerfEventsState)
    (event : List Char) (interval : Int) : ErrorR × PerfEventsState :=
  let et := forName renv event
  let st := { st with eventType := et }
  match et with
  | none => (.msg "Unsupported event type".toList, st)
  | some d =>
    if interval < 0 then (.msg "interval must be positive".toList, st)
    else
      let st := { st with interval := if interval ≠ 0 then interval else d.default_interval }
      let st :=
        if senv.maxPID ≠ st.maxEvents then
          { st with events := List.replicate senv.maxPID emptySlot, maxEvents := senv.maxPID }
        else st
      let st := installSignalHandler st
      let r := createForAllThreads senv st
      if r.1 then (.ok, r.2)
      else (.msg "Perf events unavailble. See stderr of the target process.".toList, r.2)

/-! ### Signal-driven capture -/

/-- Environment of one signal delivery: the interrupted thread's argument
registers (`StackFrame(ucontext).arg0()` .. `arg3()`) and the outcome of
`read(si_fd, &counter, 8)` (`none` when the read does not return exactly
8 bytes). -/
structure SigEnv where
  arg0 : Nat
  arg1 : Nat
  arg2 : Nat
  arg3 : Nat
  readCounter : Option Nat

/-- The observable effects of one `signalHandler` invocation: the counter
value handed to `Profiler::recordSample` (if any), whether the counter fd
was read, and whether the `PERF_EVENT_IOC_RESET` / `PERF_EVENT_IOC_REFRESH`
ioctls ran. -/
structure SigEffect where
  sampleRecorded : Option Nat
  fdRead : Bool
  didReset : Bool
  didRefresh : Bool
deriving DecidableEq

/-- `PerfEvents::signalHandler`. `et` is the active `_event_type`
descriptor (non-NULL whenever a counter is armed). A delivery whose
`si_code ≤ 0` looks like an external (user- or process-sent) signal and
returns before doing anything. -/
def signalHandler (et : PerfEventTypeR) (env : SigEnv) (si_code : Int) : SigEffect :=
  if si_code ≤ 0 then
    { sampleRecorded := none, fdRead := false, didReset := false, didRefresh := false }
  else
    let cr : Nat × Bool :=
      if et.counter_arg = 1 then (env.arg0, false)
      else if et.counter_arg = 2 then (env.arg1, false)
      else if et.counter_arg = 3 then (env.arg2, false)
      else if et.counter_arg = 4 then (env.arg3, false)
      else
        match env.readCounter with
        | some v => (v, true)
        | none => (1, true)
    { sampleRecorded := some cr.1, fdRead := cr.2, didReset := true, didRefresh := true }

/-! ### Ring-buffer call-chain reader -/

/-- The inner loop of `getCallChain` over one `PERF_RECORD_SAMPLE`: read
`nr` consecutive u64 words via `RingBuffer::next` (the current masked
offset is `off`), skip context markers (`ip ≥ PERF_CONTEXT_MAX`), stop at
the first address inside `[jit_min, jit_max)` without storing it, and
stop when `depth` reaches `max_depth`. Returns the stored addresses in
order; the final depth is `depth` plus the length of the result. -/
def decodeSample (ring : Nat → Nat) (off : Nat) (nr : Nat)
    (depth max_depth jit_min jit_max : Nat) : List Nat :=
  match nr with
  | 0 => []
  | n + 1 =>
    if depth < max_depth then
      let off' := (off + 8) &&& (PERF_PAGE_SIZE - 1)
      let ip := ring off' % 2 ^ 64
      if ip < PERF_CONTEXT_MAX then
        if jit_min ≤ ip ∧ ip < jit_max then []
        else ip :: decodeSample ring off' n (depth + 1) max_depth jit_min jit_max
      else decodeSample ring off' n depth max_depth jit_min jit_max
    else []

/-- The record-scanning loop of `getCallChain`: walk headers from `tail`
towards `head` (a `struct perf_event_header` is one u64: `type` in the
low 32 bits, `size` in the top 16), decode the first
`PERF_RECORD_SAMPLE` found and stop. `fuel` bounds the walk: the C loop
advances `tail` by `hdr->size` each step and does not terminate on a
zero-size header, so the model consumes one fuel per record. -/
def scanRecords (ring : Nat → Nat) (tail head max_depth jit_min jit_max : Nat) :
    Nat → List Nat
  | 0 => []
  | fuel + 1 =>
    if tail < head then
      let off := tail &&& (PERF_PAGE_SIZE - 1)
      let hdr := ring off % 2 ^ 64
      if hdr % 2 ^ 32 = PERF_RECORD_SAMPLE then
        let off' := (off + 8) &&& (PERF_PAGE_SIZE - 1)
        let nr := ring off' % 2 ^ 64
        decodeSample ring off' nr 0 max_depth jit_min jit_max
      else scanRecords ring (tail + hdr / 2 ^ 48) head max_depth jit_min jit_max fuel
    else []

/-- `PerfEvents::getCallChain`. The tid is used to index `_events` with
no capacity check (the total embedding yields `none` out of bounds, where
the C code reads past the array). A failed `tryLock` (slot being
destroyed) or a NULL page returns depth 0 with the state unchanged (the
transient lock/unlock pair nets out). Otherwise the records between the
observed cursors are scanned and `data_tail` is set to the observed
`data_head` regardless of how much was inspected. Returns the depth, the
decoded addresses and the new state. -/
def getCallChain (st : PerfEventsState) (tid max_depth jit_min jit_max : Nat) :
    Option (Nat × List Nat × PerfEventsState) :=
  match st.events[tid]? with
  | none => none
  | some ev =>
    if ev.locked then some (0, [], st)
    else
      match ev.page with
      | none => some (0, [], st)
      | some pg =>
        let chain := scanRecords pg.ring pg.dataTail pg.dataHead max_depth jit_min jit_max
          (pg.dataHead - pg.dataTail)
        let ev' := { ev with page := some { pg with dataTail := pg.dataHead } }
        some (chain.length, chain, { st with events := st.events.set tid ev' })

/-! ### Helper lemmas -/

theorem set_getD_self {α : Type} (d : α) : ∀ (l : List α) (i : Nat), l.set i (l.getD i d) = l
  | [], _ => rfl
  | _ :: _, 0 => rfl
  | a :: as, i + 1 => by
    simp only [List.set, List.getD_cons_succ]
    exact congrArg (a :: ·) (set_getD_self d as i)

theorem getD_set_self {α : Type} (d a : α) (l : List α) (i : Nat) (h : i < l.length) :
    (l.set i a).getD i d = a := by
  simp [List.getD, List.getElem?_set_self h]

theorem destroySlot_fd (ev : PerfEvent) : (destroySlot ev).fd = 0 := by
  by_cases hf : ev.fd = 0 <;> by_cases hp : ev.page.isSome <;>
    simp_all [destroySlot]

theorem destroySlot_page (ev : PerfEvent) : (destroySlot ev).page = none := by
  by_cases hf : ev.fd = 0 <;> by_cases hp : ev.page.isSome <;>
    simp_all [destroySlot, Option.not_isSome_iff_eq_none]

theorem destroySlot_of_clear (ev : PerfEvent) (hf : ev.fd = 0) (hp : ev.page = none) :
    destroySlot ev = ev := by
  simp [destroySlot, hf, hp]

theorem destroySlot_idem (ev : PerfEvent) : destroySlot (destroySlot ev) = destroySlot ev :=
  destroySlot_of_clear _ (destroySlot_fd ev) (destroySlot_page ev)

theorem createForThread_preserves (env : SysEnv) (st : PerfEventsState) (tid : Nat) :
    (createForThread env st tid).2.maxEvents = st.maxEvents ∧
      (createForThread env st tid).2.events.length = st.events.length := by
  unfold createForThread
  split
  · exact ⟨rfl, rfl⟩
  · split
    · exact ⟨rfl, rfl⟩
    · exact ⟨rfl, by simp⟩

theorem destroyForThread_idem (st : PerfEventsState) (tid : Nat) :
    destroyForThread (destroyForThread st tid) tid = destroyForThread st tid := by
  by_cases h : tid ≥ st.maxEvents
  · have h1 : destroyForThread st tid = st := by rw [destroyForThread, if_pos h]
    rw [h1, h1]
  · have h1 : destroyForThread st tid =
        { st with events :=
            st.events.set tid (destroySlot (st.events.getD tid emptySlot)) } := by
      rw [destroyForThread, if_neg h]
    rw [h1, destroyForThread]
    dsimp only
    rw [if_neg h]
    by_cases h2 : tid < st.events.length
    · rw [getD_set_self _ _ _ _ h2, destroySlot_idem, List.set_set]
    · have hoob : ∀ (l : List PerfEvent) (a : PerfEvent), l.length ≤ tid → l.set tid a = l :=
        fun l a hl => List.set_eq_of_length_le hl
      have hlen : (st.events.set tid (destroySlot (st.events.getD tid emptySlot))).length =
          st.events.length := by simp
      rw [hoob _ _ (by omega)]

end PerfEventsLinux

namespace PerfEventsLinux

theorem decodeSample_length (ring : Nat → Nat) :
    ∀ (n off depth max_depth jit_min jit_max : Nat),
      (decodeSample ring off n depth max_depth jit_min jit_max).length ≤
        max_depth - depth := by
  intro n
  induction n with
  | zero => intro off depth maxd jmin jmax; simp [decodeSample]
  | succ n ih =>
    intro off depth maxd jmin jmax
    rw [decodeSample]
    dsimp only
    split
    · split
      · split
        · simp
        · have := ih ((off + 8) &&& (PERF_PAGE_SIZE - 1)) (depth + 1) maxd jmin jmax
          simp only [List.length_cons]
          omega
      · exact ih ((off + 8) &&& (PERF_PAGE_SIZE - 1)) depth maxd jmin jmax
    · simp

theorem decodeSample_length0 (ring : Nat → Nat) (off n max_depth jit_min jit_max : Nat) :
    (decodeSample ring off n 0 max_depth jit_min jit_max).length ≤ max_depth := by
  have := decodeSample_length ring n off 0 max_depth jit_min jit_max
  omega

theorem decodeSample_mem (ring : Nat → Nat) :
    ∀ (n off depth max_depth jit_min jit_max a : Nat),
      a ∈ decodeSample ring off n depth max_depth jit_min jit_max →
        ¬(jit_min ≤ a ∧ a < jit_max) := by
  intro n
  induction n with
  | zero => intro off depth maxd jmin jmax a ha; simp [decodeSample] at ha
  | succ n ih =>
    intro off depth maxd jmin jmax a ha
    rw [decodeSample] at ha
    dsimp only at ha
    split at ha
    · split at ha
      · split at ha
        · simp at ha
        · rcases List.mem_cons.mp ha with h | h
          · subst h; assumption
          · exact ih _ _ _ _ _ _ h
      · exact ih _ _ _ _ _ _ ha
    · simp at ha

theorem scanRecords_length (ring : Nat → Nat) (head max_depth jit_min jit_max : Nat) :
    ∀ (fuel tail : Nat),
      (scanRecords ring tail head max_depth jit_min jit_max fuel).length ≤ max_depth := by
  intro fuel
  induction fuel with
  | zero => intro tail; simp [scanRecords]
  | succ fuel ih =>
    intro tail
    rw [scanRecords]
    dsimp only
    split
    · split
      · exact decodeSample_length0 ring _ _ _ _ _
      · exact ih _
    · simp

theorem scanRecords_mem (ring : Nat → Nat) (head max_depth jit_min jit_max : Nat) :
    ∀ (fuel tail a : Nat),
      a ∈ scanRecords ring tail head max_depth jit_min jit_max fuel →
        ¬(jit_min ≤ a ∧ a < jit_max) := by
  intro fuel
  induction fuel with
  | zero => intro tail a ha; simp [scanRecords] at ha
  | succ fuel ih =>
    intro tail a ha
    rw [scanRecords] at ha
    dsimp only at ha
    split at ha
    · split at ha
      · exact decodeSample_mem ring _ _ _ _ _ _ _ ha
      · exact ih _ _ ha
    · simp at ha

/-! ### Concrete sample state used to witness the ring-buffer theorems:
one slot whose buffer holds a single `PERF_RECORD_SAMPLE` (type 9,
size 16) with `nr = 3` and instruction pointers 0x500, 150, 0 — with
excluded range `[100, 200)` the decode stores 0x500 and stops at 150. -/

def ringC : Nat → Nat := fun off =>
  if off = 0 then PERF_RECORD_SAMPLE + 16 * 2 ^ 48
  else if off = 8 then 3
  else if off = 16 then 0x500
  else if off = 24 then 150
  else 0

def pgC : RBPage := { dataTail := 0, dataHead := 16, ring := ringC }

def evC : PerfEvent := { locked := false, fd := 5, page := some pgC }

def stC : PerfEventsState :=
  { maxEvents := 1, events := [evC], eventType := none, interval := 0,
    handlerInstalled := true, warnCount := 0 }

/-! ### The claims -/

/-- C1: `getCallChain` returns a depth of at most `max_depth`, no stored
address lies inside `[jit_min, jit_max)`, and on the first in-range
address the decode loop stops without storing it. -/
theorem getCallChain_depth_le_and_excluded :
    (∀ (st : PerfEventsState) (tid max_depth jit_min jit_max d : Nat)
        (chain : List Nat) (st' : PerfEventsState),
        getCallChain st tid max_depth jit_min jit_max = some (d, chain, st') →
        d ≤ max_depth ∧ ∀ a ∈ chain, ¬(jit_min ≤ a ∧ a < jit_max)) ∧
    (∀ (ring : Nat → Nat) (off n depth max_depth jit_min jit_max : Nat),
        depth < max_depth →
        ring ((off + 8) &&& (PERF_PAGE_SIZE - 1)) % 2 ^ 64 < PERF_CONTEXT_MAX →
        jit_min ≤ ring ((off + 8) &&& (PERF_PAGE_SIZE - 1)) % 2 ^ 64 →
        ring ((off + 8) &&& (PERF_PAGE_SIZE - 1)) % 2 ^ 64 < jit_max →
        decodeSample ring off (n + 1) depth max_depth jit_min jit_max = []) := by
  constructor
  · intro st tid maxd jmin jmax d chain st' h
    unfold getCallChain at h
    cases hm : st.events[tid]? with
    | none => rw [hm] at h; exact absurd h (by simp)
    | some ev =>
      rw [hm] at h
      dsimp only at h
      by_cases hl : ev.locked
      · rw [if_pos hl] at h
        simp only [Option.some.injEq, Prod.mk.injEq] at h
        obtain ⟨hd, hc, -⟩ := h
        subst hd; subst hc
        exact ⟨Nat.zero_le _, by simp⟩
      · rw [if_neg hl] at h
        cases hp : ev.page with
        | none =>
          rw [hp] at h
          simp only [Option.some.injEq, Prod.mk.injEq] at h
          obtain ⟨hd, hc, -⟩ := h
          subst hd; subst hc
          exact ⟨Nat.zero_le _, by simp⟩
        | some pg =>
          rw [hp] at h
          dsimp only at h
          simp only [Option.some.injEq, Prod.mk.injEq] at h
          obtain ⟨hd, hc, -⟩ := h
          subst hd; subst hc
          exact ⟨scanRecords_length _ _ _ _ _ _ _,
                 fun a ha => scanRecords_mem _ _ _ _ _ _ _ _ ha⟩
  · intro ring off n depth maxd jmin jmax h1 h2 h3 h4
    rw [decodeSample]
    dsimp only
    rw [if_pos h1, if_pos h2, if_pos ⟨h3, h4⟩]

/-- Witness for C1 at the concrete sample state: depth 1 of cap 16,
stored chain `[0x500]`, nothing inside `[100, 200)`. -/
theorem getCallChain_depth_le_and_excluded_witness :
    1 ≤ 16 ∧ ∀ a ∈ [0x500], ¬(100 ≤ a ∧ a < 200) :=
  getCallChain_depth_le_and_excluded.1 stC 0 16 100 200 1 [0x500]
    { stC with events := [{ evC with page := some { pgC with dataTail := 16 } }] } rfl

/-- C7: when `getCallChain` acquires the guard and sees a non-null
buffer, it sets `data_tail` to the `data_head` it observed, whatever was
inspected; with the ring-buffer invariant `data_tail ≤ data_head` the
read cursor therefore never decreases across calls. -/
theorem getCallChain_tail_to_head :
    ∀ (st : PerfEventsState) (tid max_depth jit_min jit_max : Nat) (ev : PerfEvent)
      (pg : RBPage),
      st.events[tid]? = some ev → ev.locked = false → ev.page = some pg →
      ∃ d chain st' ev' pg',
        getCallChain st tid max_depth jit_min jit_max = some (d, chain, st') ∧
        st'.events[tid]? = some ev' ∧ ev'.page = some pg' ∧
        pg'.dataTail = pg.dataHead ∧
        (pg.dataTail ≤ pg.dataHead → pg.dataTail ≤ pg'.dataTail) := by
  intro st tid maxd jmin jmax ev pg hm hl hp
  have htid : tid < st.events.length := (List.getElem?_eq_some_iff.mp hm).1
  have hev2 : ∃ ev2 : PerfEvent,
      ev2 = { ev with page := some { pg with dataTail := pg.dataHead } } := ⟨_, rfl⟩
  obtain ⟨ev2, hev2⟩ := hev2
  refine ⟨(scanRecords pg.ring pg.dataTail pg.dataHead maxd jmin jmax
      (pg.dataHead - pg.dataTail)).length,
    scanRecords pg.ring pg.dataTail pg.dataHead maxd jmin jmax (pg.dataHead - pg.dataTail),
    { st with events := st.events.set tid ev2 }, ev2,
    { pg with dataTail := pg.dataHead }, ?_, ?_, ?_, rfl, fun h => h⟩
  · unfold getCallChain
    rw [hm]
    dsimp only
    rw [if_neg (by rw [hl]; exact Bool.false_ne_true), hp, hev2]
  · exact List.getElem?_set_self htid
  · rw [hev2]

/-- Witness for C7 at the concrete sample state. -/
theorem getCallChain_tail_to_head_witness :
    ∃ d chain st' ev' pg',
      getCallChain stC 0 16 100 200 = some (d, chain, st') ∧
      st'.events[0]? = some ev' ∧ ev'.page = some pg' ∧
      pg'.dataTail = pgC.dataHead ∧
      (pgC.dataTail ≤ pgC.dataHead → pgC.dataTail ≤ pg'.dataTail) :=
  getCallChain_tail_to_head stC 0 16 100 200 evC pgC rfl rfl rfl

/-- C9: `getCallChain` indexes the slot array by `tid` with no capacity
check: out of bounds the total embedding yields `none`, while any
in-bounds `tid` proceeds to a result. -/
theorem getCallChain_no_capacity_check :
    ∀ (st : PerfEventsState) (tid max_depth jit_min jit_max : Nat),
      (st.events.length ≤ tid → getCallChain st tid max_depth jit_min jit_max = none) ∧
      (tid < st.events.length →
        (getCallChain st tid max_depth jit_min jit_max).isSome = true) := by
  intro st tid maxd jmin jmax
  constructor
  · intro h
    unfold getCallChain
    rw [List.getElem?_eq_none h]
  · intro h
    have hm : st.events[tid]? = some st.events[tid] := List.getElem?_eq_getElem h
    unfold getCallChain
    rw [hm]
    dsimp only
    by_cases hl : st.events[tid].locked
    · rw [if_pos hl]; rfl
    · rw [if_neg hl]
      cases hp : st.events[tid].page with
      | none => rfl
      | some pg => rfl

/-- Witness for C9: tid 5 is beyond the one-slot array and yields `none`;
tid 0 is in bounds and yields a result. -/
theorem getCallChain_no_capacity_check_witness :
    getCallChain stC 5 16 100 200 = none ∧
      (getCallChain stC 0 16 100 200).isSome = true :=
  ⟨(getCallChain_no_capacity_check stC 5 16 100 200).1 (by decide),
   (getCallChain_no_capacity_check stC 0 16 100 200).2 (by decide)⟩

/-- A concrete syscall environment for witnesses. -/
def env0 : SysEnv :=
  { maxPID := 1, openFd := fun _ => some 7, mmapOk := fun _ => true, liveTids := [0] }

/-- A concrete resolution environment in which no dynamic symbol and no
debugfs tracepoint resolves. -/
def renv0 : ResolveEnv := { dlsym := fun _ => 0, tracefsId := fun _ => 0 }

/-- The `cpu` catalog entry. -/
def cpuE : PerfEventTypeR :=
  { name := some "cpu".toList, default_interval := DEFAULT_INTERVAL, precise_ip := 2,
    type := PERF_TYPE_SOFTWARE, config := PERF_COUNT_SW_CPU_CLOCK }

/-- C5: after `createForThread tid` then `destroyForThread tid` (tid
below capacity, well-formed slot array) the slot's handle is 0 and its
buffer pointer null, and a second `destroyForThread` changes nothing. -/
theorem create_then_destroy_clears_slot :
    ∀ (env : SysEnv) (st : PerfEventsState) (tid : Nat),
      tid < st.maxEvents → st.events.length = st.maxEvents →
      ((destroyForThread (createForThread env st tid).2 tid).events.getD tid emptySlot).fd
          = 0 ∧
      ((destroyForThread (createForThread env st tid).2 tid).events.getD tid emptySlot).page
          = none ∧
      destroyForThread (destroyForThread (createForThread env st tid).2 tid) tid =
        destroyForThread (createForThread env st tid).2 tid := by
  intro env st tid h hwf
  obtain ⟨hmax, hlen⟩ := createForThread_preserves env st tid
  have htidl : tid < (createForThread env st tid).2.events.length := by omega
  have hd : destroyForThread (createForThread env st tid).2 tid =
      { (createForThread env st tid).2 with
        events := (createForThread env st tid).2.events.set tid
          (destroySlot ((createForThread env st tid).2.events.getD tid emptySlot)) } := by
    rw [destroyForThread, if_neg (by omega)]
  refine ⟨?_, ?_, destroyForThread_idem _ _⟩
  · rw [hd]
    dsimp only
    rw [getD_set_self _ _ _ _ htidl]
    exact destroySlot_fd _
  · rw [hd]
    dsimp only
    rw [getD_set_self _ _ _ _ htidl]
    exact destroySlot_page _

/-- Witness for C5 at `tid = 0` of the one-slot concrete state. -/
theorem create_then_destroy_clears_slot_witness :
    ((destroyForThread (createForThread env0 stC 0).2 0).events.getD 0 emptySlot).fd = 0 ∧
    ((destroyForThread (createForThread env0 stC 0).2 0).events.getD 0 emptySlot).page
        = none ∧
    destroyForThread (destroyForThread (createForThread env0 stC 0).2 0) 0 =
      destroyForThread (createForThread env0 stC 0).2 0 :=
  create_then_destroy_clears_slot env0 stC 0 (by decide) (by decide)

/-- C6: a tid at or beyond capacity makes `createForThread` return false
after one warning, slots untouched, and makes `destroyForThread` a
complete no-op. -/
theorem capacity_guard_rejects :
    ∀ (env : SysEnv) (st : PerfEventsState) (tid : Nat),
      st.maxEvents ≤ tid →
      createForThread env st tid = (false, { st with warnCount := st.warnCount + 1 }) ∧
      destroyForThread st tid = st := by
  intro env st tid h
  constructor
  · rw [createForThread, if_pos h]
  · rw [destroyForThread, if_pos h]

/-- Witness for C6: tid 5 against the one-slot state. -/
theorem capacity_guard_rejects_witness :
    createForThread env0 stC 5 = (false, { stC with warnCount := stC.warnCount + 1 }) ∧
      destroyForThread stC 5 = stC :=
  capacity_guard_rejects env0 stC 5 (by decide)

/-- C2: when `start` fails on name resolution or on a negative interval,
it returns the corresponding typed error and opens nothing: the slot
array, capacity, interval, handler flag and warning count are exactly
those of the initial state (only `_event_type` has been assigned, which
the C code does before its NULL check). -/
theorem start_failure_no_partial_session :
    ∀ (renv : ResolveEnv) (senv : SysEnv) (st : PerfEventsState) (event : List Char)
      (interval : Int),
      (forName renv event = none →
        start renv senv st event interval =
          (.msg "Unsupported event type".toList, { st with eventType := none })) ∧
      (∀ d, forName renv event = some d → interval < 0 →
        start renv senv st event interval =
          (.msg "interval must be positive".toList, { st with eventType := some d })) := by
  intro renv senv st event interval
  constructor
  · intro h
    unfold start
    rw [h]
  · intro d h hlt
    unfold start
    rw [h]
    dsimp only
    rw [if_pos hlt]

/-- Witness for C2: an unresolvable name, and `cpu` with interval −1. -/
theorem start_failure_no_partial_session_witness :
    start renv0 env0 stC "nosuchfunc".toList 1 =
        (.msg "Unsupported event type".toList, { stC with eventType := none }) ∧
      start renv0 env0 stC "cpu".toList (-1) =
        (.msg "interval must be positive".toList, { stC with eventType := some cpuE }) :=
  ⟨(start_failure_no_partial_session renv0 env0 stC "nosuchfunc".toList 1).1 rfl,
   (start_failure_no_partial_session renv0 env0 stC "cpu".toList (-1)).2 cpuE rfl
     (by decide)⟩

/-- A concrete signal environment for the C8 witness. -/
def sigEnv0 : SigEnv := { arg0 := 1, arg1 := 2, arg2 := 3, arg3 := 4, readCounter := some 9 }

/-- C8: a delivery whose `si_code ≤ 0` (user- or process-sent signal)
makes the handler return immediately: no sample is recorded, the counter
fd is not read, and the counter is neither reset nor re-armed. -/
theorem signalHandler_ignores_external :
    ∀ (et : PerfEventTypeR) (env : SigEnv) (si_code : Int),
      si_code ≤ 0 →
      signalHandler et env si_code =
        { sampleRecorded := none, fdRead := false, didReset := false, didRefresh := false } := by
  intro et env c h
  rw [signalHandler, if_pos h]

/-- Witness for C8 at `si_code = 0` (e.g. a `kill`-sent SIGPROF). -/
theorem signalHandler_ignores_external_witness :
    signalHandler cpuE sigEnv0 0 =
      { sampleRecorded := none, fdRead := false, didReset := false, didRefresh := false } :=
  signalHandler_ignores_external cpuE sigEnv0 0 (by decide)

/-- A concrete resolution environment in which exactly the symbol `foo`
resolves, at address 0x1000. -/
def envF : ResolveEnv :=
  { dlsym := fun s => if s = "foo".toList then 0x1000 else 0, tracefsId := fun _ => 0 }

/-- C4: `"mem:foo+0x10/4:w"` resolves to a breakpoint at `foo + 0x10` of
length 4 with write access, and the bare name `"foo"` to an execution
breakpoint of pointer width at `foo`'s resolved address. -/
theorem breakpoint_spec_parsing :
    ∀ (env : ResolveEnv) (a : Nat), env.dlsym "foo".toList = a → a ≠ 0 →
      (∃ d, forName env "mem:foo+0x10/4:w".toList = some d ∧
        d.type = PERF_TYPE_BREAKPOINT ∧ d.config = (a + 0x10) % 2 ^ 64 ∧
        d.bp_type = HW_BREAKPOINT_W ∧ d.bp_len = 4) ∧
      (∃ d, forName env "foo".toList = some d ∧
        d.type = PERF_TYPE_BREAKPOINT ∧ d.config = a % 2 ^ 64 ∧
        d.bp_type = HW_BREAKPOINT_X ∧ d.bp_len = SIZEOF_LONG) := by
  intro env a h ha
  have key1 : forName env "mem:foo+0x10/4:w".toList =
      (if env.dlsym "foo".toList = 0 then none
       else some { name := some "mem:breakpoint".toList, default_interval := 1,
                   precise_ip := 0, type := PERF_TYPE_BREAKPOINT,
                   config := (env.dlsym "foo".toList + 16) % 2 ^ 64,
                   bp_type := HW_BREAKPOINT_W, bp_len := 4, counter_arg := 0 }) := rfl
  have key2 : forName env "foo".toList =
      (if env.dlsym "foo".toList = 0 then none
       else some { name := some "mem:breakpoint".toList, default_interval := 1,
                   precise_ip := 0, type := PERF_TYPE_BREAKPOINT,
                   config := (env.dlsym "foo".toList + 0) % 2 ^ 64,
                   bp_type := HW_BREAKPOINT_X, bp_len := SIZEOF_LONG,
                   counter_arg := 0 }) := rfl
  constructor
  · rw [key1, h, if_neg ha]
    exact ⟨_, rfl, rfl, rfl, rfl, rfl⟩
  · rw [key2, h, if_neg ha]
    exact ⟨_, rfl, rfl, rfl, rfl, rfl⟩

/-- Witness for C4 in the environment resolving `foo` to 0x1000. -/
theorem breakpoint_spec_parsing_witness :
    (∃ d, forName envF "mem:foo+0x10/4:w".toList = some d ∧
      d.type = PERF_TYPE_BREAKPOINT ∧ d.config = (0x1000 + 0x10) % 2 ^ 64 ∧
      d.bp_type = HW_BREAKPOINT_W ∧ d.bp_len = 4) ∧
    (∃ d, forName envF "foo".toList = some d ∧
      d.type = PERF_TYPE_BREAKPOINT ∧ d.config = 0x1000 % 2 ^ 64 ∧
      d.bp_type = HW_BREAKPOINT_X ∧ d.bp_len = SIZEOF_LONG) :=
  breakpoint_spec_parsing envF 0x1000 rfl (by decide)

/-- C10: a trailing `:suffix` other than `r`, `w`, `x` does not fail the
breakpoint parse — the access type silently defaults to read-write and
resolution proceeds as for a valid spec (e.g. `mem:foo:rw`). -/
theorem unknown_access_defaults_rw :
    (∀ (env : ResolveEnv) (name p s : List Char) (t l : Nat),
      strrchrSplit ':' name = some (p, s) →
      s ≠ ['r'] → s ≠ ['w'] → s ≠ ['x'] →
      getBreakpoint env name t l = getBreakpointTail env p HW_BREAKPOINT_RW l) ∧
    (∃ d, forName envF "mem:foo:rw".toList = some d ∧ d.bp_type = HW_BREAKPOINT_RW) := by
  constructor
  · intro env name p s t l h h1 h2 h3
    unfold getBreakpoint
    rw [h]
    dsimp only
    rw [if_neg h1, if_neg h2, if_neg h3]
  · exact ⟨_, rfl, rfl⟩

/-- Witness for C10 at the spec `foo:rw`. -/
theorem unknown_access_defaults_rw_witness :
    getBreakpoint envF "foo:rw".toList HW_BREAKPOINT_RW 1 =
      getBreakpointTail envF "foo".toList HW_BREAKPOINT_RW 1 :=
  unknown_access_defaults_rw.1 envF "foo:rw".toList "foo".toList "rw".toList
    HW_BREAKPOINT_RW 1 rfl (by decide) (by decide) (by decide)

/-- C3 (counterexample): the catalog listing contains
`"trace:tracepoint"`, yet that name does not resolve — `forName` takes
the `trace:` branch, `atoi("tracepoint")` is 0, and resolution fails
without ever consulting the environment. -/
theorem listed_name_fails_resolution :
    some "trace:tracepoint".toList ∈ getAvailableEvents ∧
      forName renv0 "trace:tracepoint".toList = none := by
  exact ⟨by decide, rfl⟩

/-- C3 (amended): every name of the catalog listing other than the NULL
terminator and the two placeholder entries (`mem:breakpoint`,
`trace:tracepoint`) resolves successfully through `forName`, in every
environment. -/
theorem catalog_names_resolve :
    ∀ (env : ResolveEnv) (n : List Char),
      some n ∈ getAvailableEvents →
      n ≠ "mem:breakpoint".toList → n ≠ "trace:tracepoint".toList →
      (forName env n).isSome = true := by
  intro env n hn h1 h2
  simp only [getAvailableEvents, AVAILABLE_EVENTS, List.map_cons, List.map_nil,
    List.mem_cons, List.not_mem_nil, or_false, Option.some.injEq] at hn
  rcases hn with h|h|h|h|h|h|h|h|h|h|h|h|h|h|h|h
  all_goals first
    | (subst h; rfl)
    | (exact absurd h h1)
    | (exact absurd h h2)
    | (exact Option.noConfusion h)

/-- Witness for the amended C3 at the name `cpu`. -/
theorem catalog_names_resolve_witness :
    (forName renv0 "cpu".toList).isSome = true :=
  catalog_names_resolve renv0 "cpu".toList (by decide) (by decide) (by decide)

end PerfEventsLinux
